import Mathlib

/-!
Shallow embedding of the DSTV/NC1 → DXF core of `src/main.py` (repository
`nc-renamer`).  Python floats are modelled as real numbers; numeric literals
parsed from the input text are modelled as rationals (decimal literals are
exact) and coerced into ℝ where the geometry needs them.  The input text is
modelled after `text.splitlines()` as a list of lines (`List String`).
-/

namespace NcToDxf

/-- Models the constant `EPS = 1e-9` from `src/main.py`. -/
noncomputable def EPS : ℝ := 1 / 10 ^ 9

/-! ### Numeric-token scanning: `re.findall(FLOAT_RE, line)` with
`FLOAT_RE = r"[+-]?\d+(?:[.,]\d+)?"`.

The scanner below is a character-at-a-time state machine equivalent to
Python's left-to-right, non-overlapping, greedy matching of that regex:
an optional sign, a maximal digit run, then optionally one separator
(`.` or `,`) followed by a maximal digit run. -/

/-- Is the character a decimal separator accepted by `FLOAT_RE`. -/
def isSepCh (c : Char) : Bool := c == '.' || c == ','

/-- Is the character a sign accepted by `FLOAT_RE`. -/
def isSignCh (c : Char) : Bool := c == '+' || c == '-'

/-- State of the regex scanner: outside a match, after a pending sign,
inside the integer part, after a pending separator, inside the fraction. -/
inductive FSt where
  | out : FSt
  | sgn : Char → FSt
  | int : List Char → FSt
  | sep : List Char → Char → FSt
  | frac : List Char → FSt

/-- One-pass scanner for `FLOAT_RE` matches.  Each recursive call consumes
exactly one input character, so the recursion is structural. -/
def ffGo : FSt → List Char → List (List Char)
  | st, [] =>
    match st with
    | .out => []
    | .sgn _ => []
    | .int acc => [acc]
    | .sep acc _ => [acc]
    | .frac acc => [acc]
  | st, c :: cs =>
    match st with
    | .out =>
      if c.isDigit then ffGo (.int [c]) cs
      else if isSignCh c then ffGo (.sgn c) cs
      else ffGo .out cs
    | .sgn s =>
      if c.isDigit then ffGo (.int [s, c]) cs
      else if isSignCh c then ffGo (.sgn c) cs
      else ffGo .out cs
    | .int acc =>
      if c.isDigit then ffGo (.int (acc ++ [c])) cs
      else if isSepCh c then ffGo (.sep acc c) cs
      else if isSignCh c then acc :: ffGo (.sgn c) cs
      else acc :: ffGo .out cs
    | .sep acc s =>
      if c.isDigit then ffGo (.frac (acc ++ [s, c])) cs
      else if isSignCh c then acc :: ffGo (.sgn c) cs
      else acc :: ffGo .out cs
    | .frac acc =>
      if c.isDigit then ffGo (.frac (acc ++ [c])) cs
      else if isSignCh c then acc :: ffGo (.sgn c) cs
      else acc :: ffGo .out cs

/-- Models `re.findall(FLOAT_RE, ln)`: the numeric tokens of a line. -/
def findFloats (l : List Char) : List (List Char) := ffGo .out l

/-- Numeric value of a digit run (most significant first). -/
def digitsVal (ds : List Char) : ℕ :=
  ds.foldl (fun a c => 10 * a + (c.toNat - 48)) 0

/-- Value of an unsigned token `digits [sep digits]`; models
`float(s.replace(",", "."))` on the part after the optional sign. -/
def fnumAbs (t : List Char) : ℚ :=
  let ip := t.takeWhile Char.isDigit
  let rest := t.dropWhile Char.isDigit
  match rest with
  | c :: fs =>
    if isSepCh c then (digitsVal ip : ℚ) + (digitsVal fs : ℚ) / 10 ^ fs.length
    else (digitsVal ip : ℚ)
  | [] => (digitsVal ip : ℚ)

/-- Models `fnum(s) = float(s.replace(",", "."))` on tokens matched by
`FLOAT_RE` (exact decimal value, as a rational). -/
def fnum (t : List Char) : ℚ :=
  match t with
  | '-' :: rest => -(fnumAbs rest)
  | '+' :: rest => fnumAbs rest
  | _ => fnumAbs t

/-! ### Line utilities: `str.strip`, the tag regex, `"l" in ln.lower()` -/

/-- ASCII whitespace stripped by Python's `str.strip()` (the inputs of
interest are ASCII). -/
def isPySpace (c : Char) : Bool :=
  c == ' ' || c == '\t' || c == '\n' || c == '\r' || c == '\x0b' || c == '\x0c'

/-- Models `ln.strip()`. -/
def pstrip (s : String) : String :=
  String.mk (((s.toList.dropWhile isPySpace).reverse.dropWhile isPySpace).reverse)

/-- Is the character an ASCII uppercase letter (the class `[A-Z]`). -/
def isUpperAZ (c : Char) : Bool := 'A' ≤ c && c ≤ 'Z'

/-- Models `TAG_RE.fullmatch(s)` with `TAG_RE = ^[A-Z]{2}\s*$` applied to an
already stripped string: the string is exactly two uppercase letters. -/
def isTagStr (s : String) : Bool :=
  match s.toList with
  | [a, b] => isUpperAZ a && isUpperAZ b
  | _ => false

/-- Models the test `"l" in ln.lower()` of the BO classifier: the line
contains the letter ell in either case. -/
def hasEll (ln : String) : Bool :=
  ln.toList.any fun c => c == 'l' || c == 'L'

/-! ### Block tokenizer: `tokenize_blocks` (src/main.py lines 242-259) -/

/-- Loop of `tokenize_blocks` after a first tag has opened: `t` is the
stripped tag of the open block, `cur` its accumulated lines.  At a new tag
the open block is yielded; at `"EN"` emission stops (the `break`); at end of
input the open block is yielded unless its tag is `"EN"` (the final
`if cur_tag is not None and cur_tag != "EN"`).  Non-tag lines are appended
verbatim. -/
def tokGo (t : String) (cur : List String) : List String → List (String × List String)
  | [] => if t = "EN" then [] else [(t, cur)]
  | ln :: rest =>
    let s := pstrip ln
    if isTagStr s then
      if s = "EN" then [(t, cur)]
      else (t, cur) :: tokGo s [] rest
    else tokGo t (cur ++ [ln]) rest

/-- Models `tokenize_blocks(text)` on `text.splitlines()`: lines before the
first tag are discarded (`cur_tag is None`), then `tokGo` runs the open-block
loop. -/
def tokenize_blocks : List String → List (String × List String)
  | [] => []
  | ln :: rest =>
    let s := pstrip ln
    if isTagStr s then
      if s = "EN" then []
      else tokGo s [] rest
    else tokenize_blocks rest

/-- Instrumented variant of `tokGo` that also records each block's original
tag line and the unconsumed tail that starts at the `"EN"` line.  Returns
(blocks as (tag line, stripped tag, lines), trailing lines). -/
def tokFullGo (tl t : String) (cur : List String) :
    List String → List (String × String × List String) × List String
  | [] => ([(tl, t, cur)], [])
  | ln :: rest =>
    let s := pstrip ln
    if isTagStr s then
      if s = "EN" then ([(tl, t, cur)], ln :: rest)
      else
        let r := tokFullGo ln s [] rest
        ((tl, t, cur) :: r.1, r.2)
    else tokFullGo tl t (cur ++ [ln]) rest

/-- Instrumented tokenizer: returns (discarded pre-tag lines, blocks with
their original tag lines, trailing lines starting at the `"EN"` line). -/
def tokenizeFull : List String → List String × List (String × String × List String) × List String
  | [] => ([], [], [])
  | ln :: rest =>
    let s := pstrip ln
    if isTagStr s then
      if s = "EN" then ([], [], ln :: rest)
      else
        let r := tokFullGo ln s [] rest
        ([], r.1, r.2)
    else
      let r := tokenizeFull rest
      (ln :: r.1, r.2.1, r.2.2)

/-! ### Curvature-point extractor: `parse_points_k` (src/main.py 261-269) -/

/-- Models `parse_points_k(block_lines)`: a line with at least two numeric
tokens contributes `(x, y, k)` with `k` defaulting to `0.0`; other lines are
skipped. -/
def parse_points_k (ls : List String) : List (ℚ × ℚ × ℚ) :=
  ls.filterMap fun ln =>
    let nums := findFloats ln.toList
    if 2 ≤ nums.length then
      some (fnum (nums.getD 0 []), fnum (nums.getD 1 []),
            if 3 ≤ nums.length then fnum (nums.getD 2 []) else 0)
    else none

/-! ### Bore classifier (the BO branch of `generate_dxf_from_nc_text`,
src/main.py 366-377) -/

/-- A parsed BO record: the ad hoc tuples `("circle", (x, y), None, dia)`
and `("slot", c1, c2, dia)` of the source. -/
inductive BORec where
  | circle : ℚ × ℚ → ℚ → BORec
  | slot : ℚ × ℚ → ℚ × ℚ → ℚ → BORec
deriving DecidableEq, Repr

/-- Models one iteration of the BO loop: a line with the letter ell (in
either case, per `"l" in ln.lower()`) and at least 6 numeric tokens is a
slot with `c2 = c1 + (nums[4], nums[5])` (`nums[3]` is skipped); otherwise a
line with at least 3 numeric tokens is a circle; otherwise nothing. -/
def parseBOLine (ln : String) : Option BORec :=
  let nums := findFloats ln.toList
  if hasEll ln ∧ 6 ≤ nums.length then
    some (.slot (fnum (nums.getD 0 []), fnum (nums.getD 1 []))
                (fnum (nums.getD 0 []) + fnum (nums.getD 4 []),
                 fnum (nums.getD 1 []) + fnum (nums.getD 5 []))
                (fnum (nums.getD 2 [])))
  else if 3 ≤ nums.length then
    some (.circle (fnum (nums.getD 0 []), fnum (nums.getD 1 []))
                  (fnum (nums.getD 2 [])))
  else none

/-! ### Bulge geometry engine (src/main.py 271-295) -/

/-- Models `math.dist(p1, p2)`: Euclidean distance in the plane. -/
noncomputable def pdist (p q : ℝ × ℝ) : ℝ :=
  Real.sqrt ((p.1 - q.1) ^ 2 + (p.2 - q.2) ^ 2)

/-- Models `bulge_from_points_radius(p1, p2, r, ccw)`: chord length `d`,
fallback `0.0` when `r < EPS`, else `tan(theta/4)` with
`theta = 2*asin(clamp(d/(2r), -1, 1))`, negated when not `ccw`. -/
noncomputable def bulge_from_points_radius (p1 p2 : ℝ × ℝ) (r : ℝ) (ccw : Bool) : ℝ :=
  let d := pdist p1 p2
  if r < EPS then 0
  else
    let arg := max (-1) (min 1 (d / (2 * r)))
    let theta := 2 * Real.arcsin arg
    let b := Real.tan (theta / 4)
    if ccw then b else -b

/-- One loop iteration of `build_xyb_from_points`: the vertex emitted at
index `i` (`pts[i]` and `pts[(i+1) % n]`, straight edge when `|k| < EPS`,
else the bulge with `r = |k|` and `ccw = (k > 0)`). -/
noncomputable def buildVert (pts : List (ℝ × ℝ × ℝ)) (i : ℕ) : ℝ × ℝ × ℝ :=
  let p := pts.getD i (0, 0, 0)
  let q := pts.getD ((i + 1) % pts.length) (0, 0, 0)
  let k := p.2.2
  if |k| < EPS then (p.1, p.2.1, 0)
  else (p.1, p.2.1,
        bulge_from_points_radius (p.1, p.2.1) (q.1, q.2.1) |k| (decide (k > 0)))

/-- Models `build_xyb_from_points(pts)`: empty for fewer than 2 points, else
one vertex per index `i in range(n)`. -/
noncomputable def build_xyb_from_points (pts : List (ℝ × ℝ × ℝ)) : List (ℝ × ℝ × ℝ) :=
  if pts.length < 2 then []
  else (List.range pts.length).map (buildVert pts)

/-! ### Drawing primitives and the slot synthesizer (src/main.py 297-318) -/

/-- A drawing primitive handed to the modelspace sink: `msp.add_circle` or
`msp.add_lwpolyline(..., format="xyb", close=True)`, with its layer. -/
inductive Prim where
  | circle : String → ℝ × ℝ → ℝ → Prim
  | lwpolyline : String → Bool → List (ℝ × ℝ × ℝ) → Prim

/-- Layer of a primitive. -/
def primLayer : Prim → String
  | .circle l _ _ => l
  | .lwpolyline l _ _ => l

/-- Models `add_slot_capsule(msp, c1, c2, dia, layer)` as the list of
primitives it adds: degenerate to a circle (only if `r > 0`) when the
center distance `L = math.hypot(dx, dy)` is below `EPS`, else the
four-vertex capsule polyline with bulges 0, 1, 0, 1. -/
noncomputable def add_slot_capsule (c1 c2 : ℝ × ℝ) (dia : ℝ) (layer : String) : List Prim :=
  let r := dia / 2
  let dx := c2.1 - c1.1
  let dy := c2.2 - c1.2
  let L := Real.sqrt (dx ^ 2 + dy ^ 2)
  if L < EPS then
    if r > 0 then [.circle layer c1 r] else []
  else
    let nx := -dy / L
    let ny := dx / L
    [.lwpolyline layer true
      [(c1.1 - nx * r, c1.2 - ny * r, 0),
       (c2.1 - nx * r, c2.2 - ny * r, 1),
       (c2.1 + nx * r, c2.2 + ny * r, 0),
       (c1.1 + nx * r, c1.2 + ny * r, 1)]]

/-! ### Drawing assembler: `generate_dxf_from_nc_text` (src/main.py 354-412) -/

/-- A rational curvature point lifted to the real plane. -/
noncomputable def liftPt (p : ℚ × ℚ × ℚ) : ℝ × ℝ × ℝ := ((p.1 : ℝ), (p.2.1 : ℝ), (p.2.2 : ℝ))

/-- Mutable state of the block loop of `generate_dxf_from_nc_text`:
`outer_pts`, `inner_contours`, `bo_items`. -/
structure ScanState where
  outer : Option (List (ℚ × ℚ × ℚ))
  inners : List (List (ℚ × ℚ × ℚ))
  bos : List BORec
deriving DecidableEq

/-- One iteration of the block loop: `AK` overwrites `outer_pts`, `IK`
appends its points when nonempty, `BO` appends its parsed records, other
tags are ignored. -/
def scanBlock (st : ScanState) (b : String × List String) : ScanState :=
  if b.1 = "AK" then { st with outer := some (parse_points_k b.2) }
  else if b.1 = "IK" then
    let pts := parse_points_k b.2
    if pts.isEmpty then st else { st with inners := st.inners ++ [pts] }
  else if b.1 = "BO" then { st with bos := st.bos ++ b.2.filterMap parseBOLine }
  else st

/-- The block loop over all tokenized blocks. -/
def scanBlocks (blocks : List (String × List String)) : ScanState :=
  blocks.foldl scanBlock ⟨none, [], []⟩

/-- The OUTER emission: `if outer_pts:` then build the vertices and
`if verts:` add one closed polyline on layer "OUTER". -/
noncomputable def emitOuter : Option (List (ℚ × ℚ × ℚ)) → List Prim
  | none => []
  | some pts =>
    if pts.isEmpty then []
    else
      let verts := build_xyb_from_points (pts.map liftPt)
      if verts.isEmpty then [] else [.lwpolyline "OUTER" true verts]

/-- The IK emission: one closed polyline on layer "cutout" when the built
vertex list is nonempty. -/
noncomputable def emitInner (pts : List (ℚ × ℚ × ℚ)) : List Prim :=
  let verts := build_xyb_from_points (pts.map liftPt)
  if verts.isEmpty then [] else [.lwpolyline "cutout" true verts]

/-- The BO emission: a circle of radius `dia/2` on layer "cutout" when that
radius is positive, or the slot capsule. -/
noncomputable def emitBO : BORec → List Prim
  | .circle c dia =>
    if (0 : ℝ) < (dia : ℝ) / 2 then [.circle "cutout" ((c.1 : ℝ), (c.2 : ℝ)) ((dia : ℝ) / 2)]
    else []
  | .slot c1 c2 dia =>
    add_slot_capsule ((c1.1 : ℝ), (c1.2 : ℝ)) ((c2.1 : ℝ), (c2.2 : ℝ)) (dia : ℝ) "cutout"

/-- The primitives added for a list of tokenized blocks, in modelspace
order: OUTER polyline, then IK polylines, then BO circles and slots. -/
noncomputable def assembleBlocks (blocks : List (String × List String)) : List Prim :=
  let st := scanBlocks blocks
  emitOuter st.outer ++ (st.inners.map emitInner).flatten ++ (st.bos.map emitBO).flatten

/-- Models `generate_dxf_from_nc_text(txt, ...)` as the list of drawing
primitives added to the modelspace, on input lines `txt.splitlines()`. -/
noncomputable def generate_dxf_from_nc_text (lines : List String) : List Prim :=
  assembleBlocks (tokenize_blocks lines)

/-! ### Derived notions used to state the claims -/

/-- The lines of the last block with the given tag, in file order. -/
def lastBlock (tag : String) : List (String × List String) → Option (List String)
  | [] => none
  | b :: bs =>
    match lastBlock tag bs with
    | some r => some r
    | none => if b.1 = tag then some b.2 else none

/-- The lines discarded by the tokenizer before the first tag line. -/
def discardedPre (lines : List String) : List String :=
  lines.takeWhile fun ln => !(isTagStr (pstrip ln))

/-- Modelled from the spec: the reconstruction the spec claims for the
tokenizer — "concatenating, in order, the discarded pre-tag lines, all
yielded blocks' lines, and (if present) the lines preceding EN".  The
last part is read as: if some line strips to "EN", the input lines
strictly before the first such line, else nothing. -/
def claimedReconstruction (lines : List String) : List String :=
  discardedPre lines ++ ((tokenize_blocks lines).map Prod.snd).flatten ++
    (if lines.any (fun ln => pstrip ln == "EN") then
       lines.takeWhile (fun ln => !(pstrip ln == "EN"))
     else [])

/-- The inner contours contributed by a block list: the nonempty point
lists of its IK blocks, in order. -/
def innersOf (blocks : List (String × List String)) : List (List (ℚ × ℚ × ℚ)) :=
  blocks.filterMap fun b =>
    if b.1 = "IK" then
      let pts := parse_points_k b.2
      if pts.isEmpty then none else some pts
    else none

/-- The BO records contributed by a block list, in order. -/
def bosOf (blocks : List (String × List String)) : List BORec :=
  (blocks.filterMap fun b =>
    if b.1 = "BO" then some (b.2.filterMap parseBOLine) else none).flatten

/-- The bulge the spec prescribes at a point `p` whose successor is `q`
(this definition follows the spec's words, for comparison with the
code-derived `build_xyb_from_points`): 0 when the curvature magnitude is
below 1e-9, else `tan(theta/4)` with
`theta = 2*asin(clamp(d/(2|k|), -1, 1))`, positive for `k > 0` and negative
otherwise. -/
noncomputable def specBulge (p q : ℝ × ℝ × ℝ) : ℝ :=
  let k := p.2.2
  let d := pdist (p.1, p.2.1) (q.1, q.2.1)
  if |k| < EPS then 0
  else
    let theta := 2 * Real.arcsin (max (-1) (min 1 (d / (2 * |k|))))
    if 0 < k then Real.tan (theta / 4) else -Real.tan (theta / 4)

/-! ## Helper lemmas -/

theorem build_length (pts : List (ℝ × ℝ × ℝ)) (h : 2 ≤ pts.length) :
    (build_xyb_from_points pts).length = pts.length := by
  unfold build_xyb_from_points
  rw [if_neg (by omega)]
  simp

theorem build_getD (pts : List (ℝ × ℝ × ℝ)) (h : 2 ≤ pts.length) {i : ℕ}
    (hi : i < pts.length) :
    (build_xyb_from_points pts).getD i (0, 0, 0) = buildVert pts i := by
  unfold build_xyb_from_points
  rw [if_neg (by omega)]
  rw [List.getD_eq_getElem?_getD, List.getElem?_map, List.getElem?_range hi]
  rfl

theorem tan_two_arcsin_one : Real.tan (2 * Real.arcsin 1 / 4) = 1 := by
  rw [Real.arcsin_one, show 2 * (Real.pi / 2) / 4 = Real.pi / 4 by ring]
  exact Real.tan_pi_div_four

theorem tan_quarter_pos {a : ℝ} (ha : 0 < a) :
    0 < Real.tan (2 * Real.arcsin a / 4) := by
  have h1 : 0 < Real.arcsin a := Real.arcsin_pos.2 ha
  have h2 : Real.arcsin a ≤ Real.pi / 2 := Real.arcsin_le_pi_div_two a
  have hpi : 0 < Real.pi := Real.pi_pos
  apply Real.tan_pos_of_pos_of_lt_pi_div_two
  · linarith
  · linarith

theorem buildVert_eq_spec (pts : List (ℝ × ℝ × ℝ)) (i : ℕ) :
    buildVert pts i =
      ((pts.getD i (0, 0, 0)).1, (pts.getD i (0, 0, 0)).2.1,
       specBulge (pts.getD i (0, 0, 0)) (pts.getD ((i + 1) % pts.length) (0, 0, 0))) := by
  simp only [buildVert, specBulge, bulge_from_points_radius, gt_iff_lt, decide_eq_true_eq]
  split_ifs with h1 h2
  · rfl
  · rfl
  · rfl

theorem abs_five : |(5 : ℝ)| = 5 := abs_of_pos (by norm_num)

theorem pdist_vert_ten (x a b : ℝ) (h : (a - b) ^ 2 = 100) : pdist (x, a) (x, b) = 10 := by
  simp only [pdist]
  rw [show (x - x) ^ 2 + (a - b) ^ 2 = 10 ^ 2 by rw [h]; ring]
  exact Real.sqrt_sq (by norm_num)

theorem specBulge_quad_pos : specBulge ((10 : ℝ), (0 : ℝ), (5 : ℝ)) ((10 : ℝ), (10 : ℝ), (0 : ℝ)) = 1 := by
  simp only [specBulge]
  rw [abs_five]
  rw [if_neg (by norm_num [EPS])]
  rw [if_pos (by norm_num : (0:ℝ) < 5)]
  rw [pdist_vert_ten 10 0 10 (by norm_num)]
  rw [show max (-1 : ℝ) (min 1 (10 / (2 * 5))) = 1 by norm_num]
  exact tan_two_arcsin_one

theorem specBulge_quad_neg : specBulge ((0 : ℝ), (10 : ℝ), (-5 : ℝ)) 0 = -1 := by
  simp only [specBulge, Prod.fst_zero, Prod.snd_zero]
  rw [show |(-5 : ℝ)| = 5 by rw [abs_neg]; exact abs_five]
  rw [if_neg (by norm_num [EPS])]
  rw [if_neg (by norm_num : ¬ ((0:ℝ) < -5))]
  rw [pdist_vert_ten 0 10 0 (by norm_num)]
  rw [show max (-1 : ℝ) (min 1 (10 / (2 * 5))) = 1 by norm_num]
  rw [tan_two_arcsin_one]

theorem specBulge_zero_k (p q : ℝ × ℝ × ℝ) (h : p.2.2 = 0) : specBulge p q = 0 := by
  simp only [specBulge]
  rw [if_pos (by rw [h, abs_zero]; norm_num [EPS])]

theorem specBulge_small (p q : ℝ × ℝ × ℝ) (h : |p.2.2| < EPS) : specBulge p q = 0 := by
  simp only [specBulge]
  rw [if_pos h]

theorem specBulge_sign (p q : ℝ × ℝ × ℝ) (hk : EPS ≤ |p.2.2|)
    (hd : 0 < pdist (p.1, p.2.1) (q.1, q.2.1)) :
    (0 < p.2.2 → 0 < specBulge p q) ∧ (p.2.2 < 0 → specBulge p q < 0) := by
  simp only [specBulge]
  rw [if_neg (not_lt.2 hk)]
  have hkpos : 0 < |p.2.2| := lt_of_lt_of_le (by norm_num [EPS]) hk
  have hratio : 0 < pdist (p.1, p.2.1) (q.1, q.2.1) / (2 * |p.2.2|) :=
    div_pos hd (by positivity)
  have hargpos : 0 < max (-1 : ℝ) (min 1 (pdist (p.1, p.2.1) (q.1, q.2.1) / (2 * |p.2.2|))) :=
    lt_max_of_lt_right (lt_min (by norm_num) hratio)
  have htan := tan_quarter_pos hargpos
  constructor
  · intro hp
    rw [if_pos hp]
    exact htan
  · intro hn
    rw [if_neg (not_lt.2 hn.le)]
    linarith

theorem pdist_self_zero (p : ℝ × ℝ) : pdist p p = 0 := by
  simp [pdist]

theorem build_quad :
    build_xyb_from_points [((0:ℝ), (0:ℝ), (0:ℝ)), (10, 0, 5), (10, 10, 0), (0, 10, -5)] =
      [(0, 0, 0), (10, 0, 1), (10, 10, 0), (0, 10, -1)] := by
  unfold build_xyb_from_points
  rw [if_neg (by norm_num)]
  rw [show ([((0:ℝ), (0:ℝ), (0:ℝ)), (10, 0, 5), (10, 10, 0), (0, 10, -5)] :
        List (ℝ × ℝ × ℝ)).length = 4 from rfl]
  rw [show List.range 4 = [0, 1, 2, 3] from rfl]
  simp only [List.map_cons, List.map_nil]
  rw [buildVert_eq_spec, buildVert_eq_spec, buildVert_eq_spec, buildVert_eq_spec]
  rw [show ([((0:ℝ), (0:ℝ), (0:ℝ)), (10, 0, 5), (10, 10, 0), (0, 10, -5)] :
        List (ℝ × ℝ × ℝ)).length = 4 from rfl]
  simp only [List.getD_cons_zero, List.getD_cons_succ]
  norm_num [specBulge_quad_pos, specBulge_quad_neg, specBulge_zero_k]

theorem tokFullGo_recon : ∀ (rest : List String) (tl t : String) (cur : List String),
    ((tokFullGo tl t cur rest).1.map (fun b => b.1 :: b.2.2)).flatten ++
      (tokFullGo tl t cur rest).2 = tl :: (cur ++ rest) := by
  intro rest
  induction rest with
  | nil => intro tl t cur; simp [tokFullGo]
  | cons ln rest ih =>
    intro tl t cur
    simp only [tokFullGo]
    by_cases htag : isTagStr (pstrip ln) = true
    · rw [if_pos htag]
      by_cases hen : pstrip ln = "EN"
      · rw [if_pos hen]
        simp
      · rw [if_neg hen]
        simp only [List.map_cons, List.flatten_cons, List.append_assoc]
        rw [ih]
        simp
    · rw [if_neg htag]
      rw [ih]
      simp

theorem tokenizeFull_recon (lines : List String) :
    (tokenizeFull lines).1 ++
      (((tokenizeFull lines).2.1).map (fun b => b.1 :: b.2.2)).flatten ++
      (tokenizeFull lines).2.2 = lines := by
  induction lines with
  | nil => simp [tokenizeFull]
  | cons ln rest ih =>
    simp only [tokenizeFull]
    by_cases htag : isTagStr (pstrip ln) = true
    · rw [if_pos htag]
      by_cases hen : pstrip ln = "EN"
      · rw [if_pos hen]
        simp
      · rw [if_neg hen]
        have := tokFullGo_recon rest ln (pstrip ln) []
        simpa using this
    · rw [if_neg htag]
      simp only [List.cons_append]
      rw [List.append_assoc] at ih ⊢
      exact congrArg (ln :: ·) ih

theorem tokGo_eq_full : ∀ (rest : List String) (tl t : String) (cur : List String),
    t ≠ "EN" →
    tokGo t cur rest = (tokFullGo tl t cur rest).1.map (fun b => b.2) := by
  intro rest
  induction rest with
  | nil => intro tl t cur ht; simp [tokGo, tokFullGo, ht]
  | cons ln rest ih =>
    intro tl t cur ht
    simp only [tokGo, tokFullGo]
    by_cases htag : isTagStr (pstrip ln) = true
    · rw [if_pos htag]; rw [if_pos htag]
      by_cases hen : pstrip ln = "EN"
      · rw [if_pos hen]; rw [if_pos hen]
        simp
      · rw [if_neg hen]; rw [if_neg hen]
        simp only [List.map_cons]
        rw [ih ln (pstrip ln) [] hen]
    · rw [if_neg htag]; rw [if_neg htag]
      exact ih tl t (cur ++ [ln]) ht

theorem tokenize_blocks_eq_full (lines : List String) :
    tokenize_blocks lines = ((tokenizeFull lines).2.1).map (fun b => b.2) := by
  induction lines with
  | nil => simp [tokenize_blocks, tokenizeFull]
  | cons ln rest ih =>
    simp only [tokenize_blocks, tokenizeFull]
    by_cases htag : isTagStr (pstrip ln) = true
    · rw [if_pos htag]; rw [if_pos htag]
      by_cases hen : pstrip ln = "EN"
      · rw [if_pos hen]; rw [if_pos hen]
        simp
      · rw [if_neg hen]; rw [if_neg hen]
        exact tokGo_eq_full rest ln (pstrip ln) [] hen
    · rw [if_neg htag]; rw [if_neg htag]
      exact ih

theorem tokenizeFull_pre (lines : List String) :
    (tokenizeFull lines).1 = discardedPre lines := by
  induction lines with
  | nil => simp [tokenizeFull, discardedPre]
  | cons ln rest ih =>
    simp only [tokenizeFull, discardedPre, List.takeWhile_cons]
    by_cases htag : isTagStr (pstrip ln) = true
    · rw [if_pos htag]
      by_cases hen : pstrip ln = "EN"
      · rw [if_pos hen]
        simp [htag]
      · rw [if_neg hen]
        simp [htag]
    · rw [if_neg htag]
      have hb : (!isTagStr (pstrip ln)) = true := by
        simp only [Bool.not_eq_true']
        exact Bool.not_eq_true _ |>.mp htag
      rw [if_pos hb]
      simp only [List.cons.injEq, true_and]
      rw [ih]
      rfl

theorem scanBlock_outer_of_ne (st : ScanState) (b : String × List String)
    (h : ¬ b.1 = "AK") : (scanBlock st b).outer = st.outer := by
  simp only [scanBlock]
  rw [if_neg h]
  split_ifs <;> rfl

theorem scanBlock_outer_of_ak (st : ScanState) (b : String × List String)
    (h : b.1 = "AK") : (scanBlock st b).outer = some (parse_points_k b.2) := by
  simp only [scanBlock]
  rw [if_pos h]

theorem foldl_scan_outer : ∀ (blocks : List (String × List String)) (init : ScanState),
    (blocks.foldl scanBlock init).outer =
      (match lastBlock "AK" blocks with
       | some bl => some (parse_points_k bl)
       | none => init.outer) := by
  intro blocks
  induction blocks with
  | nil => intro init; rfl
  | cons b bs ih =>
    intro init
    simp only [List.foldl_cons, lastBlock]
    rw [ih]
    cases h : lastBlock "AK" bs with
    | some r => rfl
    | none =>
      by_cases hak : b.1 = "AK"
      · rw [if_pos hak]
        exact scanBlock_outer_of_ak init b hak
      · rw [if_neg hak]
        exact scanBlock_outer_of_ne init b hak

theorem scanBlock_inners (st : ScanState) (b : String × List String) :
    (scanBlock st b).inners = st.inners ++
      (if b.1 = "IK" then
         (if (parse_points_k b.2).isEmpty then [] else [parse_points_k b.2])
       else []) := by
  simp only [scanBlock]
  split_ifs with h1 h2 h3 h4 <;> simp_all

theorem scanBlock_bos (st : ScanState) (b : String × List String) :
    (scanBlock st b).bos = st.bos ++
      (if b.1 = "BO" then b.2.filterMap parseBOLine else []) := by
  simp only [scanBlock]
  split_ifs with h1 h2 h3 h4 <;> simp_all

theorem foldl_scan_inners : ∀ (blocks : List (String × List String)) (init : ScanState),
    (blocks.foldl scanBlock init).inners = init.inners ++ innersOf blocks := by
  intro blocks
  induction blocks with
  | nil => intro init; simp [innersOf]
  | cons b bs ih =>
    intro init
    simp only [List.foldl_cons, innersOf, List.filterMap_cons]
    rw [ih]
    rw [scanBlock_inners]
    by_cases hik : b.1 = "IK"
    · rw [if_pos hik, if_pos hik]
      by_cases hempty : (parse_points_k b.2).isEmpty
      · rw [if_pos hempty, if_pos hempty]
        simp [innersOf]
      · rw [if_neg hempty, if_neg hempty]
        simp [innersOf]
    · rw [if_neg hik, if_neg hik]
      simp [innersOf]

theorem foldl_scan_bos : ∀ (blocks : List (String × List String)) (init : ScanState),
    (blocks.foldl scanBlock init).bos = init.bos ++ bosOf blocks := by
  intro blocks
  induction blocks with
  | nil => intro init; simp [bosOf]
  | cons b bs ih =>
    intro init
    simp only [List.foldl_cons, bosOf, List.filterMap_cons]
    rw [ih]
    rw [scanBlock_bos]
    by_cases hbo : b.1 = "BO"
    · rw [if_pos hbo, if_pos hbo]
      simp [bosOf]
    · rw [if_neg hbo, if_neg hbo]
      simp [bosOf]

theorem scanBlocks_eq (blocks : List (String × List String)) :
    scanBlocks blocks =
      ⟨(lastBlock "AK" blocks).map parse_points_k, innersOf blocks, bosOf blocks⟩ := by
  have houter := foldl_scan_outer blocks ⟨none, [], []⟩
  have hinners := foldl_scan_inners blocks ⟨none, [], []⟩
  have hbos := foldl_scan_bos blocks ⟨none, [], []⟩
  simp only [scanBlocks] at *
  cases hs : blocks.foldl scanBlock ⟨none, [], []⟩ with
  | mk o i bo =>
    rw [hs] at houter hinners hbos
    simp only at houter hinners hbos
    subst hinners
    subst hbos
    simp only [List.nil_append]
    cases h : lastBlock "AK" blocks with
    | some r => rw [h] at houter; simp [houter]
    | none => rw [h] at houter; simp [houter]

theorem assembleBlocks_eq (blocks : List (String × List String)) :
    assembleBlocks blocks =
      emitOuter ((lastBlock "AK" blocks).map parse_points_k) ++
      ((innersOf blocks).map emitInner).flatten ++
      ((bosOf blocks).map emitBO).flatten := by
  simp only [assembleBlocks, scanBlocks_eq]

theorem add_slot_capsule_layer (c1 c2 : ℝ × ℝ) (dia : ℝ) (layer : String) :
    ∀ p ∈ add_slot_capsule c1 c2 dia layer, primLayer p = layer := by
  intro p hp
  simp only [add_slot_capsule] at hp
  split_ifs at hp with h1 h2
  · rw [List.mem_singleton] at hp
    subst hp
    rfl
  · exact absurd hp (List.not_mem_nil p)
  · rw [List.mem_singleton] at hp
    subst hp
    rfl

theorem emitOuter_layer (o : Option (List (ℚ × ℚ × ℚ))) :
    ∀ p ∈ emitOuter o, primLayer p = "OUTER" := by
  intro p hp
  cases o with
  | none => exact absurd hp (List.not_mem_nil p)
  | some pts =>
    simp only [emitOuter] at hp
    split_ifs at hp with h1 h2
    · exact absurd hp (List.not_mem_nil p)
    · exact absurd hp (List.not_mem_nil p)
    · rw [List.mem_singleton] at hp
      subst hp
      rfl

theorem emitInner_layer (pts : List (ℚ × ℚ × ℚ)) :
    ∀ p ∈ emitInner pts, primLayer p = "cutout" := by
  intro p hp
  simp only [emitInner] at hp
  split_ifs at hp with h1
  · exact absurd hp (List.not_mem_nil p)
  · rw [List.mem_singleton] at hp
    subst hp
    rfl

theorem emitBO_layer (r : BORec) : ∀ p ∈ emitBO r, primLayer p = "cutout" := by
  intro p hp
  cases r with
  | circle c dia =>
    simp only [emitBO] at hp
    split_ifs at hp with h1
    · rw [List.mem_singleton] at hp
      subst hp
      rfl
    · exact absurd hp (List.not_mem_nil p)
  | slot c1 c2 dia => exact add_slot_capsule_layer _ _ _ _ p hp

theorem cutout_part_layer (blocks : List (String × List String)) :
    ∀ p ∈ ((innersOf blocks).map emitInner).flatten ++ ((bosOf blocks).map emitBO).flatten,
      primLayer p = "cutout" := by
  intro p hp
  rw [List.mem_append] at hp
  cases hp with
  | inl h =>
    rw [List.mem_flatten] at h
    obtain ⟨l, hl, hpl⟩ := h
    rw [List.mem_map] at hl
    obtain ⟨pts, _, rfl⟩ := hl
    exact emitInner_layer pts p hpl
  | inr h =>
    rw [List.mem_flatten] at h
    obtain ⟨l, hl, hpl⟩ := h
    rw [List.mem_map] at hl
    obtain ⟨r, _, rfl⟩ := hl
    exact emitBO_layer r p hpl

theorem lastBlock_of_none_matching (tag : String) :
    ∀ blocks : List (String × List String),
      (∀ b ∈ blocks, ¬ b.1 = tag) → lastBlock tag blocks = none := by
  intro blocks
  induction blocks with
  | nil => intro _; rfl
  | cons b bs ih =>
    intro h
    simp only [lastBlock]
    rw [ih (fun x hx => h x (List.mem_cons_of_mem b hx))]
    rw [if_neg (h b (List.mem_cons_self b bs))]

theorem innersOf_filter_ak (blocks : List (String × List String)) :
    innersOf (blocks.filter (fun b => !(b.1 == "AK"))) = innersOf blocks := by
  induction blocks with
  | nil => rfl
  | cons b bs ih =>
    simp only [innersOf] at ih ⊢
    simp only [List.filter_cons]
    by_cases hak : b.1 = "AK"
    · have hb : (!(b.1 == "AK")) = false := by simp [hak]
      rw [hb]
      rw [if_neg (by decide : ¬ (false = true))]
      rw [List.filterMap_cons_none (by simp [hak])]
      exact ih
    · have hb : (!(b.1 == "AK")) = true := by simp [hak]
      rw [hb]
      rw [if_pos rfl]
      simp only [List.filterMap_cons]
      rw [ih]

theorem bosOf_filter_ak (blocks : List (String × List String)) :
    bosOf (blocks.filter (fun b => !(b.1 == "AK"))) = bosOf blocks := by
  induction blocks with
  | nil => rfl
  | cons b bs ih =>
    simp only [bosOf] at ih ⊢
    simp only [List.filter_cons]
    by_cases hak : b.1 = "AK"
    · have hb : (!(b.1 == "AK")) = false := by simp [hak]
      rw [hb]
      rw [if_neg (by decide : ¬ (false = true))]
      rw [List.filterMap_cons_none (by simp [hak])]
      exact ih
    · have hb : (!(b.1 == "AK")) = true := by simp [hak]
      rw [hb]
      rw [if_pos rfl]
      simp only [List.filterMap_cons]
      cases hfb : (if b.1 = "BO" then some (List.filterMap parseBOLine b.2) else none) with
      | none => simpa using ih
      | some v => simp [ih]

theorem filter_layer_eq_self {l : List Prim} {lay : String}
    (h : ∀ p ∈ l, primLayer p = lay) :
    l.filter (fun p => primLayer p == lay) = l := by
  rw [List.filter_eq_self]
  intro p hp
  simp [h p hp]

theorem filter_layer_eq_nil {l : List Prim} {lay lay2 : String}
    (h : ∀ p ∈ l, primLayer p = lay) (hne : lay ≠ lay2) :
    l.filter (fun p => primLayer p == lay2) = [] := by
  rw [List.filter_eq_nil_iff]
  intro p hp
  simp [h p hp, hne]

theorem assemble_filter_outer (blocks : List (String × List String)) :
    (assembleBlocks blocks).filter (fun p => primLayer p == "OUTER") =
      emitOuter ((lastBlock "AK" blocks).map parse_points_k) := by
  rw [assembleBlocks_eq, List.append_assoc, List.filter_append]
  rw [filter_layer_eq_self (emitOuter_layer _)]
  rw [filter_layer_eq_nil (cutout_part_layer blocks) (by decide)]
  simp

theorem assemble_filter_cutout (blocks : List (String × List String)) :
    (assembleBlocks blocks).filter (fun p => primLayer p == "cutout") =
      ((innersOf blocks).map emitInner).flatten ++ ((bosOf blocks).map emitBO).flatten := by
  rw [assembleBlocks_eq, List.append_assoc, List.filter_append]
  rw [filter_layer_eq_nil (emitOuter_layer _) (by decide)]
  rw [filter_layer_eq_self (cutout_part_layer blocks)]
  simp

/-! ## Claims -/

/-- C8: the "OUTER" layer of the assembled drawing is built solely from
the points of the last AK block in file order (each AK block overwrites
`outer_pts`), and AK blocks contribute nothing to the "cutout" layer: the
cutout primitives are the same as when every AK block is removed. -/
theorem C8_last_ak_wins (lines : List String)
    (_hcount : 2 ≤ ((tokenize_blocks lines).filter (fun b => b.1 == "AK")).length) :
    (generate_dxf_from_nc_text lines).filter (fun p => primLayer p == "OUTER") =
      emitOuter ((lastBlock "AK" (tokenize_blocks lines)).map parse_points_k) ∧
    (generate_dxf_from_nc_text lines).filter (fun p => primLayer p == "cutout") =
      (assembleBlocks ((tokenize_blocks lines).filter (fun b => !(b.1 == "AK")))).filter
        (fun p => primLayer p == "cutout") := by
  constructor
  · simp only [generate_dxf_from_nc_text]
    exact assemble_filter_outer (tokenize_blocks lines)
  · simp only [generate_dxf_from_nc_text]
    rw [assemble_filter_cutout, assemble_filter_cutout]
    rw [innersOf_filter_ak, bosOf_filter_ak]

/-- Witness for C8 on an input with two AK blocks. -/
theorem C8_last_ak_wins_witness :
    2 ≤ ((tokenize_blocks ["AK", "0 0", "1 1", "AK", "2 2", "3 3", "EN"]).filter
          (fun b => b.1 == "AK")).length ∧
    ((generate_dxf_from_nc_text ["AK", "0 0", "1 1", "AK", "2 2", "3 3", "EN"]).filter
        (fun p => primLayer p == "OUTER") =
      emitOuter ((lastBlock "AK"
        (tokenize_blocks ["AK", "0 0", "1 1", "AK", "2 2", "3 3", "EN"])).map parse_points_k) ∧
     (generate_dxf_from_nc_text ["AK", "0 0", "1 1", "AK", "2 2", "3 3", "EN"]).filter
        (fun p => primLayer p == "cutout") =
      (assembleBlocks ((tokenize_blocks ["AK", "0 0", "1 1", "AK", "2 2", "3 3", "EN"]).filter
          (fun b => !(b.1 == "AK")))).filter (fun p => primLayer p == "cutout")) :=
  ⟨by decide, C8_last_ak_wins ["AK", "0 0", "1 1", "AK", "2 2", "3 3", "EN"] (by decide)⟩

/-- C1: for every contour of at least 2 curvature points and every index
`i` (successor taken modulo the length), the vertex emitted at `i` carries
the point's coordinates and the bulge the spec prescribes (`specBulge`):
0 when the curvature magnitude is below 1e-9, else `tan(theta/4)` with
`theta = 2*asin(clamp(d/(2|k|), -1, 1))`, signed by the sign of `k`; and
the closed quad (0,0,k=0), (10,0,k=5), (10,10,k=0), (0,10,k=-5) yields
bulges 0, +1, 0, -1. -/
theorem C1_bulge_emission :
    (∀ (pts : List (ℝ × ℝ × ℝ)) (i : ℕ), 2 ≤ pts.length → i < pts.length →
      (build_xyb_from_points pts).getD i (0, 0, 0) =
        ((pts.getD i (0, 0, 0)).1, (pts.getD i (0, 0, 0)).2.1,
         specBulge (pts.getD i (0, 0, 0)) (pts.getD ((i + 1) % pts.length) (0, 0, 0)))) ∧
    build_xyb_from_points [((0:ℝ), (0:ℝ), (0:ℝ)), (10, 0, 5), (10, 10, 0), (0, 10, -5)] =
      [(0, 0, 0), (10, 0, 1), (10, 10, 0), (0, 10, -1)] :=
  ⟨fun pts i h hi => by rw [build_getD pts h hi, buildVert_eq_spec], build_quad⟩

/-- Witness for C1 at index 1 of the quad contour. -/
theorem C1_bulge_emission_witness :
    2 ≤ ([((0:ℝ), (0:ℝ), (0:ℝ)), (10, 0, 5), (10, 10, 0), (0, 10, -5)] :
          List (ℝ × ℝ × ℝ)).length ∧
    1 < ([((0:ℝ), (0:ℝ), (0:ℝ)), (10, 0, 5), (10, 10, 0), (0, 10, -5)] :
          List (ℝ × ℝ × ℝ)).length ∧
    (build_xyb_from_points
        [((0:ℝ), (0:ℝ), (0:ℝ)), (10, 0, 5), (10, 10, 0), (0, 10, -5)]).getD 1 (0, 0, 0) =
      ((([((0:ℝ), (0:ℝ), (0:ℝ)), (10, 0, 5), (10, 10, 0), (0, 10, -5)] :
          List (ℝ × ℝ × ℝ)).getD 1 (0, 0, 0)).1,
       (([((0:ℝ), (0:ℝ), (0:ℝ)), (10, 0, 5), (10, 10, 0), (0, 10, -5)] :
          List (ℝ × ℝ × ℝ)).getD 1 (0, 0, 0)).2.1,
       specBulge
         (([((0:ℝ), (0:ℝ), (0:ℝ)), (10, 0, 5), (10, 10, 0), (0, 10, -5)] :
            List (ℝ × ℝ × ℝ)).getD 1 (0, 0, 0))
         (([((0:ℝ), (0:ℝ), (0:ℝ)), (10, 0, 5), (10, 10, 0), (0, 10, -5)] :
            List (ℝ × ℝ × ℝ)).getD
           ((1 + 1) % ([((0:ℝ), (0:ℝ), (0:ℝ)), (10, 0, 5), (10, 10, 0), (0, 10, -5)] :
              List (ℝ × ℝ × ℝ)).length) (0, 0, 0))) :=
  ⟨by norm_num, by norm_num,
   C1_bulge_emission.1 [((0:ℝ), (0:ℝ), (0:ℝ)), (10, 0, 5), (10, 10, 0), (0, 10, -5)] 1
     (by norm_num) (by norm_num)⟩

/-- C5 counterexample: the classifier does not require the literal letter
'l' — it lowercases the line first.  The line "1 2 3 4 5 6 L" contains no
'l' and yields 6 numeric tokens, so per the claim it would be a Hole, yet
the code classifies it as a Slot (with `c2 = c1 + (nums[4], nums[5])`). -/
theorem C5_bo_classification_counterexample :
    parseBOLine "1 2 3 4 5 6 L" = some (BORec.slot (1, 2) (6, 8) 3) ∧
    'l' ∉ "1 2 3 4 5 6 L".toList := by
  constructor
  · have htoks : findFloats "1 2 3 4 5 6 L".toList =
        [['1'], ['2'], ['3'], ['4'], ['5'], ['6']] := by decide
    have hell : hasEll "1 2 3 4 5 6 L" = true := by decide
    simp only [parseBOLine, htoks, hell]
    norm_num [List.getD]
    rw [show fnum ['1'] = 1 from by decide, show fnum ['2'] = 2 from by decide,
        show fnum ['3'] = 3 from by decide, show fnum ['5'] = 5 from by decide,
        show fnum ['6'] = 6 from by decide]
    norm_num
  · decide

/-- C5 amended: the bore classifier, with the case-insensitive ell test the
code performs (`"l" in ln.lower()`): an ell (either case) plus at least 6
numeric tokens gives a Slot with `c2 = c1 + (nums[4], nums[5])` (`nums[3]`
never consumed); otherwise at least 3 numeric tokens give a Hole; otherwise
the line is discarded. -/
theorem C5_bo_classification_amended (ln : String) :
    (hasEll ln = true ∧ 6 ≤ (findFloats ln.toList).length →
      parseBOLine ln = some (BORec.slot
        (fnum ((findFloats ln.toList).getD 0 []), fnum ((findFloats ln.toList).getD 1 []))
        (fnum ((findFloats ln.toList).getD 0 []) + fnum ((findFloats ln.toList).getD 4 []),
         fnum ((findFloats ln.toList).getD 1 []) + fnum ((findFloats ln.toList).getD 5 []))
        (fnum ((findFloats ln.toList).getD 2 [])))) ∧
    (¬ (hasEll ln = true ∧ 6 ≤ (findFloats ln.toList).length) →
     3 ≤ (findFloats ln.toList).length →
      parseBOLine ln = some (BORec.circle
        (fnum ((findFloats ln.toList).getD 0 []), fnum ((findFloats ln.toList).getD 1 []))
        (fnum ((findFloats ln.toList).getD 2 [])))) ∧
    ((findFloats ln.toList).length < 3 → parseBOLine ln = none) := by
  refine ⟨fun h => ?_, fun hn h3 => ?_, fun hlt => ?_⟩
  · simp only [parseBOLine]
    rw [if_pos h]
  · simp only [parseBOLine]
    rw [if_neg hn, if_pos h3]
  · simp only [parseBOLine]
    rw [if_neg (fun hc => by omega), if_neg (by omega)]

/-- Witness for the amended C5 on the hole line "5 5 12". -/
theorem C5_bo_classification_amended_witness :
    ¬ (hasEll "5 5 12" = true ∧ 6 ≤ (findFloats "5 5 12".toList).length) ∧
    3 ≤ (findFloats "5 5 12".toList).length ∧
    parseBOLine "5 5 12" = some (BORec.circle
      (fnum ((findFloats "5 5 12".toList).getD 0 []),
       fnum ((findFloats "5 5 12".toList).getD 1 []))
      (fnum ((findFloats "5 5 12".toList).getD 2 []))) :=
  ⟨by decide, by decide,
   (C5_bo_classification_amended "5 5 12").2.1 (by decide) (by decide)⟩

/-- C6 counterexample: the tokenizer drops tag lines, so the claimed
concatenation cannot reproduce the input.  On input ["AB", "EN"] the
discarded pre-tag lines are empty, the single block ("AB", []) has no
lines, and the lines preceding "EN" are ["AB"], so the claimed
reconstruction gives ["AB"], not ["AB", "EN"]. -/
theorem C6_tokenizer_reconstruction_counterexample :
    claimedReconstruction ["AB", "EN"] = ["AB"] ∧
    claimedReconstruction ["AB", "EN"] ≠ ["AB", "EN"] := by
  constructor
  · decide
  · decide

/-- C6 amended: the reconstruction holds once each yielded block's original
tag line is put back in front of its lines and the unconsumed tail starting
at the "EN" line is appended: discarded pre-tag lines ++ (tag line :: block
lines, per block) ++ trailing lines = the input; moreover the blocks of the
instrumented tokenizer project onto exactly the (tag, lines) pairs of
`tokenize_blocks`, and its first component is exactly the discarded pre-tag
prefix. -/
theorem C6_tokenizer_reconstruction_amended (lines : List String) :
    (tokenizeFull lines).1 ++
      (((tokenizeFull lines).2.1).map (fun b => b.1 :: b.2.2)).flatten ++
      (tokenizeFull lines).2.2 = lines ∧
    tokenize_blocks lines = ((tokenizeFull lines).2.1).map (fun b => b.2) ∧
    (tokenizeFull lines).1 = discardedPre lines :=
  ⟨tokenizeFull_recon lines, tokenize_blocks_eq_full lines, tokenizeFull_pre lines⟩

/-- C3 counterexample: the sign law fails as stated.  At the 2-point
contour [(0,0,k=1e-10), (1,0,0)] the curvature at index 0 is positive but
the emitted bulge is exactly 0 (the `|k| < 1e-9` branch); at the 2-point
contour [(0,0,k=5), (0,0,0)] the curvature is 5 > 0 but the chord is
zero-length, so the emitted bulge is again 0, not positive. -/
theorem C3_sign_law_counterexample :
    (0 : ℝ) < 1 / 10 ^ 10 ∧
    ((build_xyb_from_points [((0:ℝ), (0:ℝ), 1 / 10 ^ 10), (1, 0, 0)]).getD 0 (0, 0, 0)).2.2 = 0 ∧
    (0 : ℝ) < 5 ∧
    ((build_xyb_from_points [((0:ℝ), (0:ℝ), (5:ℝ)), (0, 0, 0)]).getD 0 (0, 0, 0)).2.2 = 0 := by
  refine ⟨by positivity, ?_, by norm_num, ?_⟩
  · rw [build_getD _ (by norm_num) (by norm_num), buildVert_eq_spec]
    norm_num [List.getD_cons_zero, List.getD_cons_succ]
    exact specBulge_small _ _ (by norm_num [EPS, abs_of_pos])
  · rw [build_getD _ (by norm_num) (by norm_num), buildVert_eq_spec]
    norm_num [List.getD_cons_zero, List.getD_cons_succ]
    simp only [specBulge, Prod.fst_zero, Prod.snd_zero]
    rw [abs_five]
    rw [if_neg (by norm_num [EPS])]
    rw [if_pos (by norm_num : (0:ℝ) < 5)]
    rw [pdist_self_zero]
    rw [show max (-1:ℝ) (min 1 ((0:ℝ) / (2 * 5))) = 0 by norm_num]
    rw [Real.arcsin_zero]
    norm_num [Real.tan_zero]

/-- C3 amended: for a contour with at least 2 points, the emitted bulge at
index `i` is exactly 0 when the curvature magnitude is below 1e-9, and when
the curvature magnitude is at least 1e-9 and the chord to the successor
point is nonzero, the bulge is positive for `k > 0` and negative for
`k < 0`. -/
theorem C3_sign_law_amended (pts : List (ℝ × ℝ × ℝ)) (i : ℕ)
    (h2 : 2 ≤ pts.length) (hi : i < pts.length) :
    (|(pts.getD i (0, 0, 0)).2.2| < EPS →
       ((build_xyb_from_points pts).getD i (0, 0, 0)).2.2 = 0) ∧
    (EPS ≤ |(pts.getD i (0, 0, 0)).2.2| →
     0 < pdist ((pts.getD i (0, 0, 0)).1, (pts.getD i (0, 0, 0)).2.1)
               ((pts.getD ((i + 1) % pts.length) (0, 0, 0)).1,
                (pts.getD ((i + 1) % pts.length) (0, 0, 0)).2.1) →
     ((0 < (pts.getD i (0, 0, 0)).2.2 →
        0 < ((build_xyb_from_points pts).getD i (0, 0, 0)).2.2) ∧
      ((pts.getD i (0, 0, 0)).2.2 < 0 →
        ((build_xyb_from_points pts).getD i (0, 0, 0)).2.2 < 0))) := by
  rw [build_getD pts h2 hi, buildVert_eq_spec]
  constructor
  · intro hsmall
    exact specBulge_small _ _ hsmall
  · intro hk hd
    exact specBulge_sign _ _ hk hd

/-- Witness for the amended C3 at the contour [(0,0,k=1), (1,0,0)]. -/
theorem C3_sign_law_amended_witness :
    2 ≤ ([((0:ℝ), (0:ℝ), (1:ℝ)), (1, 0, 0)] : List (ℝ × ℝ × ℝ)).length ∧
    0 < ([((0:ℝ), (0:ℝ), (1:ℝ)), (1, 0, 0)] : List (ℝ × ℝ × ℝ)).length ∧
    ((|(([((0:ℝ), (0:ℝ), (1:ℝ)), (1, 0, 0)] : List (ℝ × ℝ × ℝ)).getD 0 (0, 0, 0)).2.2| < EPS →
       ((build_xyb_from_points [((0:ℝ), (0:ℝ), (1:ℝ)), (1, 0, 0)]).getD 0 (0, 0, 0)).2.2 = 0) ∧
     (EPS ≤ |(([((0:ℝ), (0:ℝ), (1:ℝ)), (1, 0, 0)] : List (ℝ × ℝ × ℝ)).getD 0 (0, 0, 0)).2.2| →
      0 < pdist
            ((([((0:ℝ), (0:ℝ), (1:ℝ)), (1, 0, 0)] : List (ℝ × ℝ × ℝ)).getD 0 (0, 0, 0)).1,
             (([((0:ℝ), (0:ℝ), (1:ℝ)), (1, 0, 0)] : List (ℝ × ℝ × ℝ)).getD 0 (0, 0, 0)).2.1)
            ((([((0:ℝ), (0:ℝ), (1:ℝ)), (1, 0, 0)] : List (ℝ × ℝ × ℝ)).getD
                ((0 + 1) % ([((0:ℝ), (0:ℝ), (1:ℝ)), (1, 0, 0)] : List (ℝ × ℝ × ℝ)).length)
                (0, 0, 0)).1,
             (([((0:ℝ), (0:ℝ), (1:ℝ)), (1, 0, 0)] : List (ℝ × ℝ × ℝ)).getD
                ((0 + 1) % ([((0:ℝ), (0:ℝ), (1:ℝ)), (1, 0, 0)] : List (ℝ × ℝ × ℝ)).length)
                (0, 0, 0)).2.1) →
      ((0 < (([((0:ℝ), (0:ℝ), (1:ℝ)), (1, 0, 0)] : List (ℝ × ℝ × ℝ)).getD 0 (0, 0, 0)).2.2 →
         0 < ((build_xyb_from_points [((0:ℝ), (0:ℝ), (1:ℝ)), (1, 0, 0)]).getD 0 (0, 0, 0)).2.2) ∧
       ((([((0:ℝ), (0:ℝ), (1:ℝ)), (1, 0, 0)] : List (ℝ × ℝ × ℝ)).getD 0 (0, 0, 0)).2.2 < 0 →
         ((build_xyb_from_points [((0:ℝ), (0:ℝ), (1:ℝ)), (1, 0, 0)]).getD 0 (0, 0, 0)).2.2 < 0)))) :=
  ⟨by norm_num, by norm_num,
   C3_sign_law_amended [((0:ℝ), (0:ℝ), (1:ℝ)), (1, 0, 0)] 0 (by norm_num) (by norm_num)⟩

/-- C4: for every slot whose centers are at distance at least 1e-9 the
emitted outline is exactly the four-vertex closed polyline
(c1 - r·n, 0), (c2 - r·n, 1), (c2 + r·n, 0), (c1 + r·n, 1) with
r = dia/2 and n the +90° rotation of the unit axis; and the BO line
"100 50 20 0 l 40 0" parses to Slot{(100,50), (140,50), 20} whose capsule
is (100,40,0), (140,40,1), (140,60,0), (100,60,1). -/
theorem C4_slot_outline :
    (∀ (c1 c2 : ℝ × ℝ) (dia : ℝ) (layer : String),
      EPS ≤ Real.sqrt ((c2.1 - c1.1) ^ 2 + (c2.2 - c1.2) ^ 2) →
      add_slot_capsule c1 c2 dia layer =
        [Prim.lwpolyline layer true
          [(c1.1 - -(c2.2 - c1.2) / Real.sqrt ((c2.1 - c1.1) ^ 2 + (c2.2 - c1.2) ^ 2) * (dia / 2),
            c1.2 - (c2.1 - c1.1) / Real.sqrt ((c2.1 - c1.1) ^ 2 + (c2.2 - c1.2) ^ 2) * (dia / 2),
            0),
           (c2.1 - -(c2.2 - c1.2) / Real.sqrt ((c2.1 - c1.1) ^ 2 + (c2.2 - c1.2) ^ 2) * (dia / 2),
            c2.2 - (c2.1 - c1.1) / Real.sqrt ((c2.1 - c1.1) ^ 2 + (c2.2 - c1.2) ^ 2) * (dia / 2),
            1),
           (c2.1 + -(c2.2 - c1.2) / Real.sqrt ((c2.1 - c1.1) ^ 2 + (c2.2 - c1.2) ^ 2) * (dia / 2),
            c2.2 + (c2.1 - c1.1) / Real.sqrt ((c2.1 - c1.1) ^ 2 + (c2.2 - c1.2) ^ 2) * (dia / 2),
            0),
           (c1.1 + -(c2.2 - c1.2) / Real.sqrt ((c2.1 - c1.1) ^ 2 + (c2.2 - c1.2) ^ 2) * (dia / 2),
            c1.2 + (c2.1 - c1.1) / Real.sqrt ((c2.1 - c1.1) ^ 2 + (c2.2 - c1.2) ^ 2) * (dia / 2),
            1)]]) ∧
    parseBOLine "100 50 20 0 l 40 0" = some (BORec.slot (100, 50) (140, 50) 20) ∧
    add_slot_capsule ((100:ℝ), (50:ℝ)) ((140:ℝ), (50:ℝ)) 20 "cutout" =
      [Prim.lwpolyline "cutout" true [(100, 40, 0), (140, 40, 1), (140, 60, 0), (100, 60, 1)]] := by
  have hsqrt : Real.sqrt (((140:ℝ) - 100) ^ 2 + ((50:ℝ) - 50) ^ 2) = 40 := by
    rw [show ((140:ℝ) - 100) ^ 2 + ((50:ℝ) - 50) ^ 2 = 40 ^ 2 by norm_num]
    exact Real.sqrt_sq (by norm_num)
  have htoks : findFloats "100 50 20 0 l 40 0".toList =
      [['1','0','0'], ['5','0'], ['2','0'], ['0'], ['4','0'], ['0']] := by decide
  have hell : hasEll "100 50 20 0 l 40 0" = true := by decide
  refine ⟨fun c1 c2 dia layer h => ?_, ?_, ?_⟩
  · simp only [add_slot_capsule]
    rw [if_neg (not_lt.2 h)]
  · simp only [parseBOLine, htoks, hell]
    norm_num [List.getD]
    rw [show fnum ['1','0','0'] = 100 from by decide,
        show fnum ['5','0'] = 50 from by decide,
        show fnum ['2','0'] = 20 from by decide,
        show fnum ['4','0'] = 40 from by decide,
        show fnum ['0'] = 0 from by decide]
    norm_num
  · simp only [add_slot_capsule]
    rw [if_neg (by rw [hsqrt]; norm_num [EPS])]
    rw [hsqrt]
    norm_num

/-- Witness for C4 on the example slot. -/
theorem C4_slot_outline_witness :
    EPS ≤ Real.sqrt ((((140:ℝ), (50:ℝ)).1 - ((100:ℝ), (50:ℝ)).1) ^ 2 +
      (((140:ℝ), (50:ℝ)).2 - ((100:ℝ), (50:ℝ)).2) ^ 2) ∧
    add_slot_capsule ((100:ℝ), (50:ℝ)) ((140:ℝ), (50:ℝ)) 20 "cutout" =
      [Prim.lwpolyline "cutout" true
        [(((100:ℝ), (50:ℝ)).1 - -((((140:ℝ), (50:ℝ)).2 - ((100:ℝ), (50:ℝ)).2)) /
            Real.sqrt ((((140:ℝ), (50:ℝ)).1 - ((100:ℝ), (50:ℝ)).1) ^ 2 +
              (((140:ℝ), (50:ℝ)).2 - ((100:ℝ), (50:ℝ)).2) ^ 2) * (20 / 2),
          ((100:ℝ), (50:ℝ)).2 - (((140:ℝ), (50:ℝ)).1 - ((100:ℝ), (50:ℝ)).1) /
            Real.sqrt ((((140:ℝ), (50:ℝ)).1 - ((100:ℝ), (50:ℝ)).1) ^ 2 +
              (((140:ℝ), (50:ℝ)).2 - ((100:ℝ), (50:ℝ)).2) ^ 2) * (20 / 2),
          0),
         (((140:ℝ), (50:ℝ)).1 - -((((140:ℝ), (50:ℝ)).2 - ((100:ℝ), (50:ℝ)).2)) /
            Real.sqrt ((((140:ℝ), (50:ℝ)).1 - ((100:ℝ), (50:ℝ)).1) ^ 2 +
              (((140:ℝ), (50:ℝ)).2 - ((100:ℝ), (50:ℝ)).2) ^ 2) * (20 / 2),
          ((140:ℝ), (50:ℝ)).2 - (((140:ℝ), (50:ℝ)).1 - ((100:ℝ), (50:ℝ)).1) /
            Real.sqrt ((((140:ℝ), (50:ℝ)).1 - ((100:ℝ), (50:ℝ)).1) ^ 2 +
              (((140:ℝ), (50:ℝ)).2 - ((100:ℝ), (50:ℝ)).2) ^ 2) * (20 / 2),
          1),
         (((140:ℝ), (50:ℝ)).1 + -((((140:ℝ), (50:ℝ)).2 - ((100:ℝ), (50:ℝ)).2)) /
            Real.sqrt ((((140:ℝ), (50:ℝ)).1 - ((100:ℝ), (50:ℝ)).1) ^ 2 +
              (((140:ℝ), (50:ℝ)).2 - ((100:ℝ), (50:ℝ)).2) ^ 2) * (20 / 2),
          ((140:ℝ), (50:ℝ)).2 + (((140:ℝ), (50:ℝ)).1 - ((100:ℝ), (50:ℝ)).1) /
            Real.sqrt ((((140:ℝ), (50:ℝ)).1 - ((100:ℝ), (50:ℝ)).1) ^ 2 +
              (((140:ℝ), (50:ℝ)).2 - ((100:ℝ), (50:ℝ)).2) ^ 2) * (20 / 2),
          0),
         (((100:ℝ), (50:ℝ)).1 + -((((140:ℝ), (50:ℝ)).2 - ((100:ℝ), (50:ℝ)).2)) /
            Real.sqrt ((((140:ℝ), (50:ℝ)).1 - ((100:ℝ), (50:ℝ)).1) ^ 2 +
              (((140:ℝ), (50:ℝ)).2 - ((100:ℝ), (50:ℝ)).2) ^ 2) * (20 / 2),
          ((100:ℝ), (50:ℝ)).2 + (((140:ℝ), (50:ℝ)).1 - ((100:ℝ), (50:ℝ)).1) /
            Real.sqrt ((((140:ℝ), (50:ℝ)).1 - ((100:ℝ), (50:ℝ)).1) ^ 2 +
              (((140:ℝ), (50:ℝ)).2 - ((100:ℝ), (50:ℝ)).2) ^ 2) * (20 / 2),
          1)]] := by
  have h : EPS ≤ Real.sqrt ((((140:ℝ), (50:ℝ)).1 - ((100:ℝ), (50:ℝ)).1) ^ 2 +
      (((140:ℝ), (50:ℝ)).2 - ((100:ℝ), (50:ℝ)).2) ^ 2) := by
    rw [show ((((140:ℝ), (50:ℝ)).1 - ((100:ℝ), (50:ℝ)).1) ^ 2 +
        (((140:ℝ), (50:ℝ)).2 - ((100:ℝ), (50:ℝ)).2) ^ 2) = 40 ^ 2 by norm_num]
    rw [Real.sqrt_sq (by norm_num : (0:ℝ) ≤ 40)]
    norm_num [EPS]
  exact ⟨h, C4_slot_outline.1 ((100:ℝ), (50:ℝ)) ((140:ℝ), (50:ℝ)) 20 "cutout" h⟩

/-- C7 counterexample: a degenerate slot record with coincident centers but
diameter 0 emits nothing at all, not "exactly one Hole". -/
theorem C7_degenerate_slot_counterexample :
    Real.sqrt ((((0:ℝ), (0:ℝ)).1 - ((0:ℝ), (0:ℝ)).1) ^ 2 +
      (((0:ℝ), (0:ℝ)).2 - ((0:ℝ), (0:ℝ)).2) ^ 2) < EPS ∧
    add_slot_capsule ((0:ℝ), (0:ℝ)) ((0:ℝ), (0:ℝ)) 0 "cutout" = [] := by
  constructor
  · norm_num [EPS]
  · simp only [add_slot_capsule]
    rw [if_pos (by norm_num [EPS])]
    rw [if_neg (by norm_num)]

/-- C7 amended: a slot whose centers are within distance 1e-9 emits exactly
one circle of radius dia/2 at center1 when the diameter is positive, and
nothing when the diameter is nonpositive; it never emits a capsule
polyline. -/
theorem C7_degenerate_slot_amended (c1 c2 : ℝ × ℝ) (dia : ℝ) (layer : String)
    (h : Real.sqrt ((c2.1 - c1.1) ^ 2 + (c2.2 - c1.2) ^ 2) < EPS) :
    (0 < dia → add_slot_capsule c1 c2 dia layer = [Prim.circle layer c1 (dia / 2)]) ∧
    (dia ≤ 0 → add_slot_capsule c1 c2 dia layer = []) := by
  simp only [add_slot_capsule]
  rw [if_pos h]
  constructor
  · intro hd
    rw [if_pos (by positivity : (0:ℝ) < dia / 2)]
  · intro hd
    rw [if_neg (by simp only [gt_iff_lt, not_lt]; linarith)]

/-- Witness for the amended C7 on a degenerate slot of diameter 2. -/
theorem C7_degenerate_slot_amended_witness :
    Real.sqrt ((((0:ℝ), (0:ℝ)).1 - ((0:ℝ), (0:ℝ)).1) ^ 2 +
      (((0:ℝ), (0:ℝ)).2 - ((0:ℝ), (0:ℝ)).2) ^ 2) < EPS ∧
    ((0 < (2:ℝ) → add_slot_capsule ((0:ℝ), (0:ℝ)) ((0:ℝ), (0:ℝ)) 2 "cutout" =
        [Prim.circle "cutout" ((0:ℝ), (0:ℝ)) (2 / 2)]) ∧
     ((2:ℝ) ≤ 0 → add_slot_capsule ((0:ℝ), (0:ℝ)) ((0:ℝ), (0:ℝ)) 2 "cutout" = [])) :=
  ⟨by norm_num [EPS],
   C7_degenerate_slot_amended ((0:ℝ), (0:ℝ)) ((0:ℝ), (0:ℝ)) 2 "cutout" (by norm_num [EPS])⟩

/-- C10: a BO record classified as a Hole whose diameter is nonpositive
produces no primitive at all (the `if r > 0` guard), and in particular the
input consisting of a BO block with the single line "1 1 0" produces an
empty drawing. -/
theorem C10_nonpositive_hole_dropped :
    (∀ (c : ℚ × ℚ) (dia : ℚ), dia ≤ 0 → emitBO (BORec.circle c dia) = []) ∧
    generate_dxf_from_nc_text ["BO", "1 1 0"] = [] := by
  constructor
  · intro c dia h
    simp only [emitBO]
    rw [if_neg (by
      have hcast : (dia : ℝ) ≤ 0 := by exact_mod_cast h
      simp only [not_lt]
      linarith)]
  · have hst : scanBlocks (tokenize_blocks ["BO", "1 1 0"]) =
        ⟨none, [], [BORec.circle (1, 1) 0]⟩ := by decide
    simp only [generate_dxf_from_nc_text, assembleBlocks, hst]
    simp only [emitOuter, List.map_nil, List.flatten_nil, List.map_cons, emitBO]
    rw [if_neg (by norm_num)]
    simp

/-- Witness for C10 at a diameter-0 hole. -/
theorem C10_nonpositive_hole_dropped_witness :
    (0 : ℚ) ≤ 0 ∧ emitBO (BORec.circle (0, 0) 0) = [] :=
  ⟨le_refl 0, C10_nonpositive_hole_dropped.1 (0, 0) 0 (le_refl 0)⟩

/-- C9: the engine is total — in the embedding all functions are total by
construction, and the checkable content holds: (1) for `r ≥ 1e-9` the
fallback branch of `bulge_from_points_radius` is not taken and the result
is the signed `tan(theta/4)`; (2) whenever `build_xyb_from_points` reaches
the non-straight branch it calls `bulge_from_points_radius` with
`r = |k| ≥ 1e-9`, so the internal `r < 1e-9` fallback is unreachable from
it; (3) the arcsin argument is clamped into [-1, 1], hence
`theta ∈ [-pi, pi]`. -/
theorem C9_engine_total :
    (∀ (p1 p2 : ℝ × ℝ) (r : ℝ) (ccw : Bool), EPS ≤ r →
      bulge_from_points_radius p1 p2 r ccw =
        (if ccw then Real.tan (2 * Real.arcsin (max (-1) (min 1 (pdist p1 p2 / (2 * r)))) / 4)
         else -Real.tan (2 * Real.arcsin (max (-1) (min 1 (pdist p1 p2 / (2 * r)))) / 4))) ∧
    (∀ (pts : List (ℝ × ℝ × ℝ)) (i : ℕ), 2 ≤ pts.length → i < pts.length →
      ¬ |(pts.getD i (0, 0, 0)).2.2| < EPS →
      EPS ≤ |(pts.getD i (0, 0, 0)).2.2| ∧
      (build_xyb_from_points pts).getD i (0, 0, 0) =
        ((pts.getD i (0, 0, 0)).1, (pts.getD i (0, 0, 0)).2.1,
         bulge_from_points_radius
           ((pts.getD i (0, 0, 0)).1, (pts.getD i (0, 0, 0)).2.1)
           ((pts.getD ((i + 1) % pts.length) (0, 0, 0)).1,
            (pts.getD ((i + 1) % pts.length) (0, 0, 0)).2.1)
           |(pts.getD i (0, 0, 0)).2.2|
           (decide ((pts.getD i (0, 0, 0)).2.2 > 0)))) ∧
    (∀ (p1 p2 : ℝ × ℝ) (r : ℝ),
      -1 ≤ max (-1) (min 1 (pdist p1 p2 / (2 * r))) ∧
      max (-1) (min 1 (pdist p1 p2 / (2 * r))) ≤ 1 ∧
      -Real.pi ≤ 2 * Real.arcsin (max (-1) (min 1 (pdist p1 p2 / (2 * r)))) ∧
      2 * Real.arcsin (max (-1) (min 1 (pdist p1 p2 / (2 * r)))) ≤ Real.pi) := by
  refine ⟨fun p1 p2 r ccw h => ?_, fun pts i h2 hi hk => ?_, fun p1 p2 r => ?_⟩
  · simp only [bulge_from_points_radius]
    rw [if_neg (not_lt.2 h)]
  · refine ⟨not_lt.1 hk, ?_⟩
    rw [build_getD pts h2 hi]
    simp only [buildVert]
    rw [if_neg hk]
  · refine ⟨le_max_left _ _, max_le (by norm_num) (min_le_left _ _), ?_, ?_⟩
    · have := Real.neg_pi_div_two_le_arcsin (max (-1) (min 1 (pdist p1 p2 / (2 * r))))
      linarith
    · have := Real.arcsin_le_pi_div_two (max (-1) (min 1 (pdist p1 p2 / (2 * r))))
      linarith

/-- Witness for C9 at `r = 1`, chord (0,0)-(1,0). -/
theorem C9_engine_total_witness :
    EPS ≤ (1 : ℝ) ∧
    bulge_from_points_radius ((0:ℝ), (0:ℝ)) ((1:ℝ), (0:ℝ)) 1 true =
      (if true then
         Real.tan (2 * Real.arcsin
           (max (-1) (min 1 (pdist ((0:ℝ), (0:ℝ)) ((1:ℝ), (0:ℝ)) / (2 * 1)))) / 4)
       else
         -Real.tan (2 * Real.arcsin
           (max (-1) (min 1 (pdist ((0:ℝ), (0:ℝ)) ((1:ℝ), (0:ℝ)) / (2 * 1)))) / 4)) :=
  ⟨by norm_num [EPS],
   C9_engine_total.1 ((0:ℝ), (0:ℝ)) ((1:ℝ), (0:ℝ)) 1 true (by norm_num [EPS])⟩

/-- C2: for every contour with at least 2 points, the engine outputs
exactly one vertex per input point, in the same order, with the input
(x, y) coordinates carried through unchanged. -/
theorem C2_coords_preserved (pts : List (ℝ × ℝ × ℝ)) (h : 2 ≤ pts.length) :
    (build_xyb_from_points pts).length = pts.length ∧
    ∀ i < pts.length,
      ((build_xyb_from_points pts).getD i (0, 0, 0)).1 = (pts.getD i (0, 0, 0)).1 ∧
      ((build_xyb_from_points pts).getD i (0, 0, 0)).2.1 = (pts.getD i (0, 0, 0)).2.1 := by
  refine ⟨build_length pts h, fun i hi => ?_⟩
  rw [build_getD pts h hi]
  simp only [buildVert]
  split_ifs <;> exact ⟨rfl, rfl⟩

/-- Witness for C2 at a concrete two-point contour. -/
theorem C2_coords_preserved_witness :
    2 ≤ ([((1 : ℝ), (2 : ℝ), (0 : ℝ)), (3, 4, 0)] : List (ℝ × ℝ × ℝ)).length ∧
    ((build_xyb_from_points [((1 : ℝ), (2 : ℝ), (0 : ℝ)), (3, 4, 0)]).length =
      ([((1 : ℝ), (2 : ℝ), (0 : ℝ)), (3, 4, 0)] : List (ℝ × ℝ × ℝ)).length ∧
     ∀ i < ([((1 : ℝ), (2 : ℝ), (0 : ℝ)), (3, 4, 0)] : List (ℝ × ℝ × ℝ)).length,
       ((build_xyb_from_points [((1 : ℝ), (2 : ℝ), (0 : ℝ)), (3, 4, 0)]).getD i (0, 0, 0)).1 =
         (([((1 : ℝ), (2 : ℝ), (0 : ℝ)), (3, 4, 0)] : List (ℝ × ℝ × ℝ)).getD i (0, 0, 0)).1 ∧
       ((build_xyb_from_points [((1 : ℝ), (2 : ℝ), (0 : ℝ)), (3, 4, 0)]).getD i (0, 0, 0)).2.1 =
         (([((1 : ℝ), (2 : ℝ), (0 : ℝ)), (3, 4, 0)] : List (ℝ × ℝ × ℝ)).getD i (0, 0, 0)).2.1) :=
  ⟨by norm_num, C2_coords_preserved [((1 : ℝ), (2 : ℝ), (0 : ℝ)), (3, 4, 0)] (by norm_num)⟩

end NcToDxf
